import Mathlib

/-!
Verification of the k8sbuilder field builders: merge-policy resolution, the
scalar/map/list setters of the container and pod-template builders, and the
deferred-operation ingress builder.

Each definition below is a shallow embedding of the corresponding Go function
(file and line references point into the repository sources).  Modeling
conventions:

* Go slices and maps that the source compares against nil are modeled as
  Option-valued fields (none = nil); slices that are always freshly allocated
  are plain lists.
* Go string maps are modeled as association lists read through mapGet; the
  source's map iteration order never matters for the facts proved here because
  every statement is phrased through mapGet and the merged bindings are
  independent of each other.
* A Go runtime panic is modeled as a none result of an Option-returning
  function, or as the panicked constructor of BuildResult.
* The strategic-merge-patch library (MergeK8s's core) and mergo are external
  dependencies; mergo's documented default behavior (fill only empty
  destination fields, never overwrite) is embedded exactly, and the
  strategic-merge primitive is embedded at the granularity the spec gives it
  (new non-empty fields win, destination fields absent from the new value are
  preserved).
-/

/-- Go (common.go): type WithOption string.  Policy tokens are plain strings,
so unknown tokens are representable. -/
abbrev WithOption := String

/-- Go (common.go): const Overwrite WithOption = "overwrite". -/
def Overwrite : WithOption := "overwrite"

/-- Go (common.go): const OverwriteIfDefaultValue WithOption = "overwriteIfDefaultValue". -/
def OverwriteIfDefaultValue : WithOption := "overwriteIfDefaultValue"

/-- Go (common.go): const Merge WithOption = "merge". -/
def Merge : WithOption := "merge"

/-- Go (common.go 14-20): IsOverwrite is true when no option is given or the
first option is Overwrite; later options are never inspected. -/
def IsOverwrite (opts : List WithOption) : Bool :=
  match opts with
  | [] => true
  | o :: _ => decide (o = Overwrite)

/-- Go (common.go 25-31): IsOverwriteIfDefaultValue is true when at least one
option is given and the first one is OverwriteIfDefaultValue. -/
def IsOverwriteIfDefaultValue (opts : List WithOption) : Bool :=
  match opts with
  | [] => false
  | o :: _ => decide (o = OverwriteIfDefaultValue)

/-- Go (common.go 35-41): IsMerge is true when at least one option is given and
the first one is Merge. -/
def IsMerge (opts : List WithOption) : Bool :=
  match opts with
  | [] => false
  | o :: _ => decide (o = Merge)

/-- A Go map[string]string, modeled as an association list; bindings are read
through mapGet. -/
abbrev StrMap := List (String × String)

/-- Lookup of a key in a string map (first binding wins, as map literals used
here never repeat a key). -/
def mapGet : StrMap → String → Option String
  | [], _ => none
  | (k', v') :: rest, k => if k' = k then some v' else mapGet rest k

/-- Go map assignment m[k] = v: replaces the existing binding of k, or appends
a new one. -/
def mapSet : StrMap → String → String → StrMap
  | [], k, v => [(k, v)]
  | (k', v') :: rest, k, v =>
    if k' = k then (k, v) :: rest else (k', v') :: mapSet rest k v

/-- mergo's isEmptyValue for a string value: the empty string. -/
def isEmptyValueStr (s : String) : Bool := decide (s = "")

/-- One source key of mergo's map merge (no WithOverride): the source value is
written only when the destination binding is missing or empty; a non-empty
destination binding is kept and the source value dropped. -/
def mergoPut (acc : StrMap) (kv : String × String) : StrMap :=
  match mapGet acc kv.1 with
  | none => mapSet acc kv.1 kv.2
  | some v => if isEmptyValueStr v then mapSet acc kv.1 kv.2 else acc

/-- Go (mergo.Merge on map[string]string, called without WithOverride by
WithLabels and friends): every source key is processed by mergoPut.  This is
mergo's documented default: it fills empty fields and never overwrites. -/
def mergoMergeStringMap (dst src : StrMap) : StrMap :=
  src.foldl mergoPut dst

/-- External schema (corev1.EnvVar), modeled with the fields the builder
touches. -/
structure EnvVar where
  name : String := ""
  value : String := ""
  deriving DecidableEq

/-- External schema (corev1.EnvFromSource), modeled with the reference names
the builder compares. -/
structure EnvFromSource where
  configMapName : Option String := none
  secretName : Option String := none
  deriving DecidableEq

/-- External schema (corev1.ContainerPort).  The Go int32 port number is
modeled as Int; no arithmetic is performed on it. -/
structure ContainerPort where
  name : String := ""
  containerPort : Int := 0
  deriving DecidableEq

/-- External schema (corev1.VolumeMount), modeled with the identity fields
(mountPath, subPath) and one payload field. -/
structure VolumeMount where
  name : String := ""
  mountPath : String := ""
  subPath : String := ""
  deriving DecidableEq

/-- External schema (corev1.SecurityContext), modeled with two representative
fields. -/
structure SecurityContext where
  runAsUser : Option Int := none
  privileged : Option Bool := none
  deriving DecidableEq

/-- reflect.Value.IsZero on a SecurityContext value: every field is its zero
value. -/
def SecurityContext.isZeroSC (s : SecurityContext) : Bool :=
  decide (s.runAsUser = none) && decide (s.privileged = none)

/-- External schema (corev1.ResourceRequirements): two resource maps, nil when
unset. -/
structure ResourceRequirements where
  limits : Option StrMap := none
  requests : Option StrMap := none
  deriving DecidableEq

/-- reflect.Value.IsZero on a ResourceRequirements value: both maps nil. -/
def ResourceRequirements.isZeroRR (r : ResourceRequirements) : Bool :=
  decide (r.limits = none) && decide (r.requests = none)

/-- External schema (corev1.Container), modeled with the fields the container
builder setters read or write.  Slice- and pointer-valued fields are Option
(none = Go nil). -/
structure Container where
  name : String := ""
  image : String := ""
  imagePullPolicy : String := ""
  env : Option (List EnvVar) := none
  envFrom : Option (List EnvFromSource) := none
  ports : Option (List ContainerPort) := none
  volumeMounts : Option (List VolumeMount) := none
  resources : ResourceRequirements := {}
  securityContext : Option SecurityContext := none
  deriving DecidableEq

/-- reflect.Value.IsZero on a Container value: every modeled field zero. -/
def Container.isZeroContainer (c : Container) : Bool :=
  decide (c.name = "") && decide (c.image = "") && decide (c.imagePullPolicy = "") &&
  decide (c.env = none) && decide (c.envFrom = none) && decide (c.ports = none) &&
  decide (c.volumeMounts = none) && c.resources.isZeroRR &&
  decide (c.securityContext = none)

/-- Go (container builder state, part_003 26-28): a pointer to the container
under construction. -/
structure ContainerBuilderDefault where
  container : Container
  deriving DecidableEq

/-- Go (part_003 31-35): NewContainerBuilder starts from a zero container. -/
def NewContainerBuilder : ContainerBuilderDefault := { container := {} }

/-- One iteration of the funk.IndexOf upsert loop shared by WithPort,
WithVolumeMount and the container-list setters: the first destination entry
with the same identity key is replaced in place, otherwise the entry is
appended. -/
def upsertOne {α κ : Type} [DecidableEq κ] (key : α → κ) (acc : List α) (p : α) : List α :=
  match acc.findIdx? (fun o => decide (key p = key o)) with
  | some i => acc.set i p
  | none => acc ++ [p]

/-- The full upsert loop: Go iterates the (copied) new list in order, running
upsertOne against the current destination. -/
def upsertByKey {α κ : Type} [DecidableEq κ] (key : α → κ) (dst newList : List α) : List α :=
  newList.foldl (upsertOne key) dst

/-- Go merge loop of WithEnv / WithEnvFrom (funk.Contains with deep equality):
append each new entry that is not already present. -/
def appendIfAbsent {α : Type} [DecidableEq α] (dst newList : List α) : List α :=
  newList.foldl (fun acc e => if acc.any (fun x => decide (x = e)) then acc else acc ++ [e]) dst

/-- Go (part_003 81-109) WithEnvFrom.  The argument slice is unconditionally
copied into a fresh non-nil slice, hence the stored field is always some.  The
OverwriteIfDefaultValue branch evaluates reflect.ValueOf(slice).Elem(), which
panics because Elem is only legal on pointers and interfaces; that panic is
modeled as none. -/
def ContainerBuilderDefault.WithEnvFrom (h : ContainerBuilderDefault)
    (envFroms : List EnvFromSource) (opts : List WithOption) :
    Option ContainerBuilderDefault :=
  let tmpEnvFrom := envFroms
  if IsOverwrite opts = true ∨ h.container.envFrom = none then
    some { container := { h.container with envFrom := some tmpEnvFrom } }
  else if IsOverwriteIfDefaultValue opts = true then
    none
  else if IsMerge opts = true then
    some { container := { h.container with
      envFrom := some (appendIfAbsent (h.container.envFrom.getD []) tmpEnvFrom) } }
  else some h

/-- Go (part_003 112-140) WithEnv; same shape as WithEnvFrom. -/
def ContainerBuilderDefault.WithEnv (h : ContainerBuilderDefault)
    (envs : List EnvVar) (opts : List WithOption) :
    Option ContainerBuilderDefault :=
  let tmpEnvs := envs
  if IsOverwrite opts = true ∨ h.container.env = none then
    some { container := { h.container with env := some tmpEnvs } }
  else if IsOverwriteIfDefaultValue opts = true then
    none
  else if IsMerge opts = true then
    some { container := { h.container with
      env := some (appendIfAbsent (h.container.env.getD []) tmpEnvs) } }
  else some h

/-- Go (part_003 143-151) WithImage: a plain scalar setter, no reflection. -/
def ContainerBuilderDefault.WithImage (h : ContainerBuilderDefault)
    (image : String) (opts : List WithOption) : ContainerBuilderDefault :=
  if IsOverwrite opts = true ∨ IsMerge opts = true ∨ h.container.image = "" then
    { container := { h.container with image := image } }
  else h

/-- Go (part_003 154-162) WithImagePullPolicy: a plain scalar setter. -/
def ContainerBuilderDefault.WithImagePullPolicy (h : ContainerBuilderDefault)
    (pullPolicy : String) (opts : List WithOption) : ContainerBuilderDefault :=
  if IsOverwrite opts = true ∨ IsMerge opts = true ∨ h.container.imagePullPolicy = "" then
    { container := { h.container with imagePullPolicy := pullPolicy } }
  else h

/-- Go (part_003 164-198) WithPort.  Merge reconciles by the ContainerPort
number (funk.IndexOf, first match, in-place assignment, append when absent).
The OverwriteIfDefaultValue branch panics on reflect Elem of a slice (none). -/
def ContainerBuilderDefault.WithPort (h : ContainerBuilderDefault)
    (ports : List ContainerPort) (opts : List WithOption) :
    Option ContainerBuilderDefault :=
  let tmpPorts := ports
  if IsOverwrite opts = true ∨ h.container.ports = none then
    some { container := { h.container with ports := some tmpPorts } }
  else if IsOverwriteIfDefaultValue opts = true then
    none
  else if IsMerge opts = true then
    some { container := { h.container with
      ports := some (upsertByKey (fun p => p.containerPort) (h.container.ports.getD []) tmpPorts) } }
  else some h

/-- Modeled interface of the external structural merge primitive (MergeK8s,
part_000/part_001) on resource requirements, per spec section 4.4: maps the new
value sets win, maps absent from the new value keep the destination value. -/
def mergeK8sResources (dst newR : ResourceRequirements) : ResourceRequirements :=
  { limits := if newR.limits.getD [] = [] then dst.limits else newR.limits,
    requests := if newR.requests.getD [] = [] then dst.requests else newR.requests }

/-- Go (part_003 201-226) WithResource: a nil argument returns immediately,
for every policy.  The OverwriteIfDefaultValue branch calls IsZero directly on
the struct value (no Elem), so it does not panic. -/
def ContainerBuilderDefault.WithResource (h : ContainerBuilderDefault)
    (resources : Option ResourceRequirements) (opts : List WithOption) :
    ContainerBuilderDefault :=
  match resources with
  | none => h
  | some r =>
    if IsOverwrite opts = true then
      { container := { h.container with resources := r } }
    else if IsOverwriteIfDefaultValue opts = true ∧ h.container.resources.isZeroRR = true then
      { container := { h.container with resources := r } }
    else if IsMerge opts = true then
      { container := { h.container with resources := mergeK8sResources h.container.resources r } }
    else h

/-- Modeled interface of the external structural merge primitive on a security
context: fields the new value sets win, the rest keep the destination value; a
nil new value leaves the destination as it is (the primitive then patches the
destination with itself). -/
def mergeK8sSecurityContext (dst : SecurityContext) (newSc : Option SecurityContext) :
    SecurityContext :=
  match newSc with
  | none => dst
  | some n =>
    { runAsUser := match n.runAsUser with | none => dst.runAsUser | some u => some u,
      privileged := match n.privileged with | none => dst.privileged | some b => some b }

/-- Go (part_003 229-250) WithSecurityContext.  The pointer argument is stored
directly: under Overwrite (or a nil destination) the field becomes the
argument, even when the argument is nil.  The OverwriteIfDefaultValue branch
is reached only with a non-nil destination pointer, so Elem().IsZero() is a
plain struct zero test. -/
def ContainerBuilderDefault.WithSecurityContext (h : ContainerBuilderDefault)
    (sc : Option SecurityContext) (opts : List WithOption) : ContainerBuilderDefault :=
  if IsOverwrite opts = true ∨ h.container.securityContext = none then
    { container := { h.container with securityContext := sc } }
  else if IsOverwriteIfDefaultValue opts = true ∧
      (h.container.securityContext.getD {}).isZeroSC = true then
    { container := { h.container with securityContext := sc } }
  else if IsMerge opts = true then
    { container := { h.container with
      securityContext := some (mergeK8sSecurityContext (h.container.securityContext.getD {}) sc) } }
  else h

/-- Go (part_003 253-287) WithVolumeMount.  Merge reconciles by the composite
key (mountPath, subPath); same panic modeling as WithPort. -/
def ContainerBuilderDefault.WithVolumeMount (h : ContainerBuilderDefault)
    (volumeMounts : List VolumeMount) (opts : List WithOption) :
    Option ContainerBuilderDefault :=
  let tmpVolumeMount := volumeMounts
  if IsOverwrite opts = true ∨ h.container.volumeMounts = none then
    some { container := { h.container with volumeMounts := some tmpVolumeMount } }
  else if IsOverwriteIfDefaultValue opts = true then
    none
  else if IsMerge opts = true then
    some { container := { h.container with
      volumeMounts := some (upsertByKey (fun v => (v.mountPath, v.subPath))
        (h.container.volumeMounts.getD []) tmpVolumeMount) } }
  else some h

/-- Modeled interface of the external structural merge primitive on a whole
container (MergeK8s as called by WithContainer): scalar fields the new value
sets win, empty new fields keep the destination; list fields present in the
new value replace the destination wholesale (the per-key list reconciliation
is then redone manually by the caller, which is why WithContainer replays the
list setters afterwards). -/
def mergeK8sContainer (dst newC : Container) : Container :=
  { name := if newC.name = "" then dst.name else newC.name,
    image := if newC.image = "" then dst.image else newC.image,
    imagePullPolicy :=
      if newC.imagePullPolicy = "" then dst.imagePullPolicy else newC.imagePullPolicy,
    env := if newC.env.getD [] = [] then dst.env else newC.env,
    envFrom := if newC.envFrom.getD [] = [] then dst.envFrom else newC.envFrom,
    ports := if newC.ports.getD [] = [] then dst.ports else newC.ports,
    volumeMounts := if newC.volumeMounts.getD [] = [] then dst.volumeMounts else newC.volumeMounts,
    resources := mergeK8sResources dst.resources newC.resources,
    securityContext :=
      match newC.securityContext with
      | none => dst.securityContext
      | some n => some (mergeK8sSecurityContext (dst.securityContext.getD {}) (some n)) }

/-- Go (part_003 43-78) WithContainer.  A nil argument is a no-op.  Under
Merge the original container is snapshot (DeepCopy), the structural merge
primitive is applied, and the four identity-keyed list setters are replayed:
first with the snapshot's list (default policy, restoring it), then with the
new list under Merge. -/
def ContainerBuilderDefault.WithContainer (h : ContainerBuilderDefault)
    (container : Option Container) (opts : List WithOption) :
    Option ContainerBuilderDefault :=
  match container with
  | none => some h
  | some c =>
    if IsOverwrite opts = true then
      some { container := c }
    else if IsOverwriteIfDefaultValue opts = true ∧ h.container.isZeroContainer = true then
      some { container := c }
    else if IsMerge opts = true then
      let org := h.container
      let h1 : ContainerBuilderDefault := { container := mergeK8sContainer h.container c }
      (h1.WithEnv (org.env.getD []) []).bind fun h2 =>
      (h2.WithEnv (c.env.getD []) [Merge]).bind fun h3 =>
      (h3.WithEnvFrom (org.envFrom.getD []) []).bind fun h4 =>
      (h4.WithEnvFrom (c.envFrom.getD []) [Merge]).bind fun h5 =>
      (h5.WithPort (org.ports.getD []) []).bind fun h6 =>
      (h6.WithPort (c.ports.getD []) [Merge]).bind fun h7 =>
      (h7.WithVolumeMount (org.volumeMounts.getD []) []).bind fun h8 =>
      h8.WithVolumeMount (c.volumeMounts.getD []) [Merge]
    else some h

/-- External schema (corev1.LocalObjectReference). -/
structure LocalObjectReference where
  name : String := ""
  deriving DecidableEq

/-- External schema (corev1.PodSpec), modeled with the fields the claims
exercise. -/
structure PodSpec where
  imagePullSecrets : Option (List LocalObjectReference) := none
  initContainers : Option (List Container) := none
  containers : Option (List Container) := none
  deriving DecidableEq

/-- External schema (corev1.PodTemplateSpec): object metadata labels plus the
pod spec. -/
structure PodTemplateSpec where
  labels : Option StrMap := none
  spec : PodSpec := {}
  deriving DecidableEq

/-- Go (part_003 384-386): the pod-template builder owns the template under
construction. -/
structure PodTemplateBuilderDefault where
  podTemplate : PodTemplateSpec
  deriving DecidableEq

/-- Go (part_003 389-393). -/
def NewPodTemplateBuilder : PodTemplateBuilderDefault := { podTemplate := {} }

/-- Go (part_003 442-463) WithLabels.  Overwrite (or nil destination) stores
the argument map itself; Merge calls mergo.Merge(&dst, labels) without
WithOverride, so only missing or empty destination bindings are filled.  The
OverwriteIfDefaultValue branch evaluates reflect Elem on a map value, which
panics (none). -/
def PodTemplateBuilderDefault.WithLabels (h : PodTemplateBuilderDefault)
    (labels : Option StrMap) (opts : List WithOption) :
    Option PodTemplateBuilderDefault :=
  if IsOverwrite opts = true ∨ h.podTemplate.labels = none then
    some { podTemplate := { h.podTemplate with labels := labels } }
  else if IsOverwriteIfDefaultValue opts = true then
    none
  else if IsMerge opts = true ∧ labels ≠ none then
    some { podTemplate := { h.podTemplate with
      labels := some (mergoMergeStringMap (h.podTemplate.labels.getD []) (labels.getD [])) } }
  else some h

/-- Go (part_003 490-524) WithImagePullSecrets.  The source declares
var tmpIps, then inside the non-nil branch writes tmpIps := make(...) -- the
short declaration shadows the outer variable, so the outer tmpIps stays nil
and the copy is thrown away.  Every storing branch therefore stores nil, and
the Merge loop ranges over nil (no iterations, folded over the empty list
below).  The OverwriteIfDefaultValue branch panics on reflect Elem of a
slice (none). -/
def PodTemplateBuilderDefault.WithImagePullSecrets (h : PodTemplateBuilderDefault)
    (ips : Option (List LocalObjectReference)) (opts : List WithOption) :
    Option PodTemplateBuilderDefault :=
  let tmpIps : Option (List LocalObjectReference) := none
  if IsOverwrite opts = true ∨ h.podTemplate.spec.imagePullSecrets = none then
    some { podTemplate := { h.podTemplate with
      spec := { h.podTemplate.spec with imagePullSecrets := tmpIps } } }
  else if IsOverwriteIfDefaultValue opts = true then
    none
  else if IsMerge opts = true then
    some { podTemplate := { h.podTemplate with
      spec := { h.podTemplate.spec with
        imagePullSecrets := some ((tmpIps.getD []).foldl
          (fun acc ref =>
            if acc.any (fun o => decide (ref.name = o.name)) then acc else acc ++ [ref])
          (h.podTemplate.spec.imagePullSecrets.getD [])) } } }
  else some h

/-- Go (part_003 628-631 / 672-675): the entry-level merge used by the
container-list setters: a fresh container builder seeded with the destination
entry (default overwrite), then merged with the new entry. -/
def mergeContainerViaBuilder (dst newC : Container) : Option Container :=
  (NewContainerBuilder.WithContainer (some dst) []).bind fun b1 =>
  (b1.WithContainer (some newC) [Merge]).map fun b2 => b2.container

/-- Go (part_003 597-638) WithInitContainers.  The conditional copy preserves
nil arguments.  Merge reconciles by container name against the current
InitContainers list (funk.IndexOf), appending novel names and rebuilding
matched entries through mergeContainerViaBuilder. -/
def PodTemplateBuilderDefault.WithInitContainers (h : PodTemplateBuilderDefault)
    (containers : Option (List Container)) (opts : List WithOption) :
    Option PodTemplateBuilderDefault :=
  let tmpContainers := containers
  if IsOverwrite opts = true ∨ h.podTemplate.spec.initContainers = none then
    some { podTemplate := { h.podTemplate with
      spec := { h.podTemplate.spec with initContainers := tmpContainers } } }
  else if IsOverwriteIfDefaultValue opts = true then
    none
  else if IsMerge opts = true then
    ((tmpContainers.getD []).foldl
      (fun accO c =>
        accO.bind fun acc =>
          match acc.findIdx? (fun o => decide (c.name = o.name)) with
          | none => some (acc ++ [c])
          | some i =>
            match acc.get? i with
            | some o => (mergeContainerViaBuilder o c).map fun m => acc.set i m
            | none => none)
      (some (h.podTemplate.spec.initContainers.getD []))).map fun finalList =>
      { podTemplate := { h.podTemplate with
        spec := { h.podTemplate.spec with initContainers := some finalList } } }
  else some h

/-- Go (part_003 641-681) WithContainers.  Same shape as WithInitContainers,
except that the source's merge loop computes the index with
funk.IndexOf(h.podTemplate.Spec.InitContainers, ...) -- it searches the
init-container list (which this function never modifies) while reading and
writing Spec.Containers at that index.  A name absent from InitContainers is
therefore always appended, and a found index addresses Containers, panicking
(none) when it is out of range there. -/
def PodTemplateBuilderDefault.WithContainers (h : PodTemplateBuilderDefault)
    (containers : Option (List Container)) (opts : List WithOption) :
    Option PodTemplateBuilderDefault :=
  let tmpContainers := containers
  if IsOverwrite opts = true ∨ h.podTemplate.spec.containers = none then
    some { podTemplate := { h.podTemplate with
      spec := { h.podTemplate.spec with containers := tmpContainers } } }
  else if IsOverwriteIfDefaultValue opts = true then
    none
  else if IsMerge opts = true then
    ((tmpContainers.getD []).foldl
      (fun accO c =>
        accO.bind fun acc =>
          match (h.podTemplate.spec.initContainers.getD []).findIdx?
              (fun o => decide (c.name = o.name)) with
          | none => some (acc ++ [c])
          | some i =>
            match acc.get? i with
            | some o => (mergeContainerViaBuilder o c).map fun m => acc.set i m
            | none => none)
      (some (h.podTemplate.spec.containers.getD []))).map fun finalList =>
      { podTemplate := { h.podTemplate with
        spec := { h.podTemplate.spec with containers := some finalList } } }
  else some h

/-- External schema (networkingv1.IngressSpec), modeled opaquely with one
representative field. -/
structure IngressSpec where
  ingressClassName : Option String := none
  deriving DecidableEq

/-- External schema (networkingv1.Ingress): object metadata plus the spec. -/
structure Ingress where
  name : String := ""
  namespaceVal : String := ""
  labels : Option StrMap := none
  annotationsMap : Option StrMap := none
  spec : IngressSpec := {}
  deriving DecidableEq

/-- The single positional argument each recorder stores ahead of the options
slice (Go: Args = append([]any{value}, opts)). -/
inductive OpArg where
  | strArg (s : String)
  | mapArg (m : Option StrMap)
  | specArg (sp : Option IngressSpec)
  deriving DecidableEq

/-- Go (common.go, ingress part): Operation is a recorded (name, args) pair;
the options slice rides along as the last args element. -/
structure Operation where
  name : String
  arg : OpArg
  opts : List WithOption
  deriving DecidableEq

/-- Go (common.go 64-67): the deferred builder owns the ingress and the
operation log. -/
structure IngressBuilderDefault where
  i : Ingress
  operations : List Operation
  deriving DecidableEq

/-- Go (common.go 70-75). -/
def NewIngressBuilder : IngressBuilderDefault := { i := {}, operations := [] }

/-- Go (common.go 148-157): WithName records the operation named "withName";
nothing is applied yet. -/
def IngressBuilderDefault.WithName (h : IngressBuilderDefault)
    (name : String) (opts : List WithOption) : IngressBuilderDefault :=
  { h with operations := h.operations ++ [{ name := "withName", arg := .strArg name, opts := opts }] }

/-- Go (common.go 160-169): WithNamespace records "withNamespace". -/
def IngressBuilderDefault.WithNamespace (h : IngressBuilderDefault)
    (namespaceName : String) (opts : List WithOption) : IngressBuilderDefault :=
  { h with operations :=
      h.operations ++ [{ name := "withNamespace", arg := .strArg namespaceName, opts := opts }] }

/-- Go (common.go 124-133): WithLabels records "withLabels". -/
def IngressBuilderDefault.WithLabels (h : IngressBuilderDefault)
    (labels : Option StrMap) (opts : List WithOption) : IngressBuilderDefault :=
  { h with operations := h.operations ++ [{ name := "withLabels", arg := .mapArg labels, opts := opts }] }

/-- Go (common.go 136-145): WithAnnotations records "withAnnotations". -/
def IngressBuilderDefault.WithAnnotations (h : IngressBuilderDefault)
    (annotations : Option StrMap) (opts : List WithOption) : IngressBuilderDefault :=
  { h with operations :=
      h.operations ++ [{ name := "withAnnotations", arg := .mapArg annotations, opts := opts }] }

/-- Go (common.go 112-121): WithIngressSpec records "withIngressSpec". -/
def IngressBuilderDefault.WithIngressSpec (h : IngressBuilderDefault)
    (is : Option IngressSpec) (opts : List WithOption) : IngressBuilderDefault :=
  { h with operations := h.operations ++ [{ name := "withIngressSpec", arg := .specArg is, opts := opts }] }

/-- Go (common.go 171-179): the lower-case applier withName, the method the
recorded name refers to.  Dead code at run time: reflection cannot resolve it
(see ingressExportedMethods), so Build never reaches it. -/
def IngressBuilderDefault.withNameApply (h : IngressBuilderDefault)
    (name : String) (opts : List WithOption) : IngressBuilderDefault :=
  if IsOverwrite opts = true ∨ IsMerge opts = true ∨ h.i.name = "" then
    { h with i := { h.i with name := name } }
  else h

/-- Go (common.go 181-189): the lower-case applier withNamespace; dead code
for the same reason as withNameApply. -/
def IngressBuilderDefault.withNamespaceApply (h : IngressBuilderDefault)
    (namespaceName : String) (opts : List WithOption) : IngressBuilderDefault :=
  if IsOverwrite opts = true ∨ IsMerge opts = true ∨ h.i.namespaceVal = "" then
    { h with i := { h.i with namespaceVal := namespaceName } }
  else h

/-- The method set Go reflection exposes for *IngressBuilderDefault:
reflect.Value.MethodByName consults only exported (capitalized) methods, so
the lower-case appliers withName, withNamespace, withLabels, withAnnotations,
withIngressSpec are invisible to it and the lookup of any recorded name
returns the zero Value. -/
def ingressExportedMethods : List String :=
  ["Build", "WithAnnotations", "WithIngressSpec", "WithLabels", "WithName", "WithNamespace"]

/-- Outcome of Build: a built ingress together with the post-state (log
cleared), the error return, or a Go panic. -/
inductive BuildResult where
  | ok (i : Ingress) (post : IngressBuilderDefault)
  | goError (msg : String)
  | panicked (msg : String)
  deriving DecidableEq

/-- True exactly on the error return of Build. -/
def BuildResult.isGoError : BuildResult → Bool
  | .goError _ => true
  | _ => false

/-- Go (common.go 80-109) Build, one operation at a time.  For an operation
with a non-empty name, m := rv.MethodByName(o.Name):

* the name is not an exported method: m is the zero Value, and the guard
  m.IsZero() itself panics (reflect.Value.IsZero panics on an invalid Value),
  so the intended return of errors.Errorf("Method %s not found", o.Name) on
  the next line is unreachable;
* the name is an exported method (never true for recorded operations, whose
  names are all lower-case): m.Call(args) panics, because the recorded Args
  hold the whole opts slice as one value, which is not assignable to the
  variadic WithOption parameter element type. -/
def buildLoop (ing : Ingress) : List Operation → BuildResult
  | [] => .ok ing { i := ing, operations := [] }
  | o :: rest =>
    if o.name = "" then buildLoop ing rest
    else if ingressExportedMethods.contains o.name then
      .panicked "reflect: Call using []k8sbuilder.WithOption as type k8sbuilder.WithOption"
    else
      .panicked "reflect: call of reflect.Value.IsZero on zero Value"

/-- Go (common.go 80-109): Build walks the operation log in record (FIFO)
order; on success it clears the log and returns the ingress. -/
def IngressBuilderDefault.Build (h : IngressBuilderDefault) : BuildResult :=
  buildLoop h.i h.operations

/-- Concrete container with a non-empty image, used as refutation input. -/
def cImgOld : ContainerBuilderDefault := { container := { image := "old" } }

/-- Concrete container with a populated security context, used as refutation
input. -/
def cScPresent : ContainerBuilderDefault :=
  { container := { securityContext := some { runAsUser := some 1000 } } }

/-- Concrete pod-template builder whose labels are the destination map of the
map-merge scenario. -/
def ptLabelsX1 : PodTemplateBuilderDefault :=
  { podTemplate := { labels := some [("x", "1")] } }

/-- Concrete pod-level container named "web". -/
def cWeb : Container := { name := "web" }

/-- Concrete pod-template builder whose container list is [cWeb] and whose
init-container list is nil, used as the self-merge input. -/
def ptWeb : PodTemplateBuilderDefault :=
  { podTemplate := { spec := { containers := some [cWeb] } } }

/-- Concrete pod-template builder with no image-pull secrets. -/
def ptEmpty : PodTemplateBuilderDefault := { podTemplate := {} }

/-- Helper: a string cannot satisfy two different equality tests at once. -/
theorem decide_pair_false {o a b : String} (hab : a ≠ b) :
    (decide (o = a) && decide (o = b)) = false := by
  by_cases h : o = a
  · subst h
    simp [hab]
  · simp [h]

/-- Helper: a true IsOverwriteIfDefaultValue forces the other two predicates
to be false (the head token is the OverwriteIfDefaultValue constant). -/
theorem oidv_not_overwrite_not_merge (opts : List WithOption)
    (h : IsOverwriteIfDefaultValue opts = true) :
    IsOverwrite opts = false ∧ IsMerge opts = false := by
  cases opts with
  | nil => simp [IsOverwriteIfDefaultValue] at h
  | cons o rest =>
    have ho : o = OverwriteIfDefaultValue := by
      simpa [IsOverwriteIfDefaultValue] using h
    subst ho
    exact ⟨rfl, rfl⟩

/-- C10: for every options list at most one of the three policy predicates
IsOverwrite, IsOverwriteIfDefaultValue, IsMerge is true, and for the empty
list exactly IsOverwrite is true. -/
theorem c10_policy_predicates_exclusive :
    (∀ opts : List WithOption,
        (IsOverwrite opts && IsOverwriteIfDefaultValue opts) = false ∧
        (IsOverwrite opts && IsMerge opts) = false ∧
        (IsOverwriteIfDefaultValue opts && IsMerge opts) = false) ∧
    IsOverwrite [] = true ∧ IsOverwriteIfDefaultValue [] = false ∧ IsMerge [] = false := by
  refine ⟨fun opts => ?_, rfl, rfl, rfl⟩
  cases opts with
  | nil => exact ⟨rfl, rfl, rfl⟩
  | cons o rest =>
    exact ⟨decide_pair_false (by decide), decide_pair_false (by decide),
      decide_pair_false (by decide)⟩

/-- C7 refutation: an unknown first token does not resolve to the default
Replace policy -- IsOverwrite rejects it, and WithImage on a non-empty
destination is a no-op under the unknown token while the no-token default
overwrites, so the two calls produce different builders. -/
theorem c7_counterexample_unknown_token_not_replace :
    IsOverwrite ["bogus"] = false ∧
    (cImgOld.WithImage "new" ["bogus"]).container.image = "old" ∧
    (cImgOld.WithImage "new" []).container.image = "new" ∧
    decide (cImgOld.WithImage "new" ["bogus"] = cImgOld.WithImage "new" []) = false := by
  decide

/-- C7 (amended): the empty options list resolves to Replace (IsOverwrite is
true); only the first token determines each policy predicate (later tokens
never affect them); an unknown first token raises no error but resolves to no
policy at all -- all three predicates are false, and a value-guarded setter
such as WithImage leaves a non-empty destination unchanged rather than
applying the default Replace. -/
theorem c7_amended_policy_resolution :
    IsOverwrite [] = true ∧
    (∀ (o : WithOption) (rest rest' : List WithOption),
        IsOverwrite (o :: rest) = IsOverwrite (o :: rest') ∧
        IsOverwriteIfDefaultValue (o :: rest) = IsOverwriteIfDefaultValue (o :: rest') ∧
        IsMerge (o :: rest) = IsMerge (o :: rest')) ∧
    (∀ (o : WithOption) (rest : List WithOption),
        o ≠ Overwrite → o ≠ OverwriteIfDefaultValue → o ≠ Merge →
        IsOverwrite (o :: rest) = false ∧
        IsOverwriteIfDefaultValue (o :: rest) = false ∧
        IsMerge (o :: rest) = false ∧
        (∀ (c : ContainerBuilderDefault) (img : String), c.container.image ≠ "" →
          c.WithImage img (o :: rest) = c)) := by
  refine ⟨rfl, fun o rest rest' => ⟨rfl, rfl, rfl⟩, fun o rest h1 h2 h3 => ?_⟩
  have e1 : IsOverwrite (o :: rest) = false := by simp [IsOverwrite, h1]
  have e2 : IsOverwriteIfDefaultValue (o :: rest) = false := by
    simp [IsOverwriteIfDefaultValue, h2]
  have e3 : IsMerge (o :: rest) = false := by simp [IsMerge, h3]
  refine ⟨e1, e2, e3, fun c img himg => ?_⟩
  simp only [ContainerBuilderDefault.WithImage, e1, e3]
  rw [if_neg]
  rintro (hc | hc | hc)
  · exact Bool.false_ne_true hc
  · exact Bool.false_ne_true hc
  · exact himg hc

/-- Witness for c7_amended_policy_resolution at the unknown token "bogus"
followed by a second (ignored) token. -/
theorem c7_amended_policy_resolution_witness :
    IsOverwrite ("bogus" :: [Merge]) = false ∧
    IsOverwriteIfDefaultValue ("bogus" :: [Merge]) = false ∧
    IsMerge ("bogus" :: [Merge]) = false ∧
    cImgOld.WithImage "img2" ("bogus" :: [Merge]) = cImgOld := by
  obtain ⟨e1, e2, e3, hset⟩ :=
    c7_amended_policy_resolution.2.2 "bogus" [Merge] (by decide) (by decide) (by decide)
  exact ⟨e1, e2, e3, hset cImgOld "img2" (by decide)⟩

/-- C8: the plain scalar setters WithImage and WithImagePullPolicy overwrite
the destination under Replace or DeepMerge, and under ReplaceIfUnset overwrite
exactly when the destination currently holds the empty value, leaving a
non-empty destination unchanged regardless of the new value. -/
theorem c8_scalar_setter_policies :
    ∀ (c : ContainerBuilderDefault) (img pol : String) (opts : List WithOption),
      ((IsOverwrite opts = true ∨ IsMerge opts = true) →
        (c.WithImage img opts).container.image = img ∧
        (c.WithImagePullPolicy pol opts).container.imagePullPolicy = pol) ∧
      (IsOverwriteIfDefaultValue opts = true →
        ((c.container.image = "" → (c.WithImage img opts).container.image = img) ∧
         (c.container.image ≠ "" → c.WithImage img opts = c) ∧
         (c.container.imagePullPolicy = "" →
            (c.WithImagePullPolicy pol opts).container.imagePullPolicy = pol) ∧
         (c.container.imagePullPolicy ≠ "" → c.WithImagePullPolicy pol opts = c))) := by
  intro c img pol opts
  constructor
  · rintro (h | h) <;>
      constructor <;>
      simp [ContainerBuilderDefault.WithImage, ContainerBuilderDefault.WithImagePullPolicy, h]
  · intro hoidv
    obtain ⟨hO, hM⟩ := oidv_not_overwrite_not_merge opts hoidv
    refine ⟨fun hz => ?_, fun hnz => ?_, fun hz => ?_, fun hnz => ?_⟩
    · simp [ContainerBuilderDefault.WithImage, hz]
    · simp only [ContainerBuilderDefault.WithImage, hO, hM]
      rw [if_neg]
      rintro (hc | hc | hc)
      · exact Bool.false_ne_true hc
      · exact Bool.false_ne_true hc
      · exact hnz hc
    · simp [ContainerBuilderDefault.WithImagePullPolicy, hz]
    · simp only [ContainerBuilderDefault.WithImagePullPolicy, hO, hM]
      rw [if_neg]
      rintro (hc | hc | hc)
      · exact Bool.false_ne_true hc
      · exact Bool.false_ne_true hc
      · exact hnz hc

/-- Witness for c8_scalar_setter_policies: cImgOld has image "old" (kept under
ReplaceIfUnset) and an empty pull policy (set under ReplaceIfUnset); both are
overwritten under an explicit Replace. -/
theorem c8_scalar_setter_policies_witness :
    (cImgOld.WithImage "img2" [Overwrite]).container.image = "img2" ∧
    (cImgOld.WithImagePullPolicy "Always" [Overwrite]).container.imagePullPolicy = "Always" ∧
    cImgOld.WithImage "img2" [OverwriteIfDefaultValue] = cImgOld ∧
    (cImgOld.WithImagePullPolicy "Always" [OverwriteIfDefaultValue]).container.imagePullPolicy
      = "Always" := by
  have h1 := c8_scalar_setter_policies cImgOld "img2" "Always" [Overwrite]
  have h2 := c8_scalar_setter_policies cImgOld "img2" "Always" [OverwriteIfDefaultValue]
  obtain ⟨ha, hb⟩ := h1.1 (Or.inl (by decide))
  obtain ⟨-, hkeep, hpol, -⟩ := h2.2 (by decide)
  exact ⟨ha, hb, hkeep (by decide), hpol (by decide)⟩

/-- C6 refutation: calling WithSecurityContext with a nil new value under the
default policy does not leave the destination unchanged -- it clears a
populated security context. -/
theorem c6_counterexample_nil_clears_security_context :
    (cScPresent.WithSecurityContext none []).container.securityContext = none ∧
    decide (cScPresent.WithSecurityContext none [] = cScPresent) = false := by
  decide

/-- C6 (amended): WithResource dereferences its pointer argument, so a nil new
value is an immediate no-op under every policy and never fails;
WithSecurityContext stores its pointer argument directly, so under the default
Replace policy a nil new value overwrites the destination field with nil
instead of leaving it unchanged. -/
theorem c6_amended_nil_nested_record :
    (∀ (c : ContainerBuilderDefault) (opts : List WithOption),
        c.WithResource none opts = c) ∧
    (∀ c : ContainerBuilderDefault,
        (c.WithSecurityContext none []).container.securityContext = none) := by
  constructor
  · intro c opts
    rfl
  · intro c
    simp [ContainerBuilderDefault.WithSecurityContext, IsOverwrite]

/-- C1: the deferred builder does record WithName("a"), WithName("b") in FIFO
order, but Build panics inside reflect on the very first operation -- the
recorded name "withName" is an unexported method invisible to MethodByName,
and IsZero on the resulting zero Value panics -- so no operation is applied,
no ingress is returned and the log is not cleared. -/
theorem c1_build_panics_instead_of_applying :
    ((NewIngressBuilder.WithName "a" []).WithName "b" []).operations =
      [{ name := "withName", arg := .strArg "a", opts := [] },
       { name := "withName", arg := .strArg "b", opts := [] }] ∧
    ((NewIngressBuilder.WithName "a" []).WithName "b" []).Build =
      .panicked "reflect: call of reflect.Value.IsZero on zero Value" := by
  decide

/-- Helper: Build can only produce ok or panicked; the error return that would
report the unresolvable method name is dead code. -/
theorem buildLoop_no_goError (ing : Ingress) (ops : List Operation) :
    (buildLoop ing ops).isGoError = false := by
  induction ops with
  | nil => rfl
  | cons o rest ih =>
    by_cases h : o.name = ""
    · simpa [buildLoop, h] using ih
    · by_cases h2 : o.name ∈ ingressExportedMethods
      · simp [buildLoop, h, h2, BuildResult.isGoError]
      · simp [buildLoop, h, h2, BuildResult.isGoError]

/-- C5: with an operation log whose recorded name resolves to no setter (true
of every recorded name, here "withNamespace"), Build does not return the
intended error naming the method: it panics in reflect.Value.IsZero first, and
no Build result is ever the error return. -/
theorem c5_build_panics_before_error_report :
    (NewIngressBuilder.WithNamespace "ns" []).Build =
      .panicked "reflect: call of reflect.Value.IsZero on zero Value" ∧
    ∀ h : IngressBuilderDefault, (h.Build).isGoError = false := by
  refine ⟨by decide, fun h => ?_⟩
  exact buildLoop_no_goError h.i h.operations

/-- C4: merging the container list [cWeb] with itself under Merge is not
idempotent: the source looks the name up in Spec.InitContainers (empty here),
never finds it, and appends, so the list doubles to [cWeb, cWeb]. -/
theorem c4_withcontainers_self_merge_duplicates :
    ptWeb.podTemplate.spec.containers = some [cWeb] ∧
    ptWeb.WithContainers (some [cWeb]) [Merge] =
      some { podTemplate := { spec := { containers := some [cWeb, cWeb] } } } ∧
    (ptWeb.WithContainers (some [cWeb]) [Merge]).map
        (fun b => (b.podTemplate.spec.containers.getD []).length) = some 2 := by
  decide

/-- C9: WithImagePullSecrets under the default Replace policy stores nil, not
a copy of the caller's list -- the inner short declaration shadows tmpIps, so
the stored field is none instead of being element-wise equal to the
argument. -/
theorem c9_withimagepullsecrets_stores_nil :
    (ptEmpty.WithImagePullSecrets (some [{ name := "a" }]) []).map
        (fun b => b.podTemplate.spec.imagePullSecrets) = some none ∧
    decide ((ptEmpty.WithImagePullSecrets (some [{ name := "a" }]) []).map
        (fun b => b.podTemplate.spec.imagePullSecrets)
      = some (some [{ name := "a" }])) = false := by
  decide

/-- Supporting contrast to c9: WithEnvFrom does follow the copy discipline --
under the default Replace policy the stored field is element-wise equal to the
argument list. -/
theorem withEnvFrom_stores_elementwise_copy
    (c : ContainerBuilderDefault) (envFroms : List EnvFromSource) :
    (c.WithEnvFrom envFroms []).map (fun b => b.container.envFrom)
      = some (some envFroms) := by
  simp [ContainerBuilderDefault.WithEnvFrom, IsOverwrite]

/-- Helper: looking up the key just set returns the new value. -/
theorem mapGet_mapSet_eq (m : StrMap) (k v : String) :
    mapGet (mapSet m k v) k = some v := by
  induction m with
  | nil => simp [mapSet, mapGet]
  | cons kv rest ih =>
    obtain ⟨a, b⟩ := kv
    by_cases h : a = k
    · simp [mapSet, mapGet, h]
    · simp [mapSet, mapGet, h, ih]

/-- Helper: setting one key leaves the lookup of a different key unchanged. -/
theorem mapGet_mapSet_ne (m : StrMap) {k' k : String} (v : String) (h : k' ≠ k) :
    mapGet (mapSet m k' v) k = mapGet m k := by
  induction m with
  | nil => simp [mapSet, mapGet, h]
  | cons kv rest ih =>
    obtain ⟨a, b⟩ := kv
    by_cases ha : a = k'
    · subst ha
      simp [mapSet, mapGet, h]
    · by_cases hk : a = k
      · simp [mapSet, mapGet, ha, hk, Ne.symm h]
      · simp [mapSet, mapGet, ha, hk, ih]

/-- Helper: one mergoPut step keeps a non-empty existing binding. -/
theorem mergoPut_keeps_nonempty (acc : StrMap) (kv : String × String) {k v : String}
    (h : mapGet acc k = some v) (hv : v ≠ "") :
    mapGet (mergoPut acc kv) k = some v := by
  by_cases hk : kv.1 = k
  · rw [mergoPut, hk, h]
    simp [isEmptyValueStr, hv, h]
  · rw [mergoPut]
    cases hm : mapGet acc kv.1 with
    | none => rw [mapGet_mapSet_ne acc kv.2 hk]; exact h
    | some u =>
      by_cases hu : isEmptyValueStr u = true
      · simp only [hu, if_true]
        rw [mapGet_mapSet_ne acc kv.2 hk]
        exact h
      · simp only [Bool.not_eq_true] at hu
        simp only [hu, Bool.false_eq_true, if_false]
        exact h

/-- Helper: one mergoPut step of a different key does not change a lookup. -/
theorem mergoPut_get_ne (acc : StrMap) (kv : String × String) {k : String}
    (hk : kv.1 ≠ k) :
    mapGet (mergoPut acc kv) k = mapGet acc k := by
  rw [mergoPut]
  cases hm : mapGet acc kv.1 with
  | none => exact mapGet_mapSet_ne acc kv.2 hk
  | some u =>
    by_cases hu : isEmptyValueStr u = true
    · simp only [hu, if_true]
      exact mapGet_mapSet_ne acc kv.2 hk
    · simp only [Bool.not_eq_true] at hu
      simp only [hu, Bool.false_eq_true, if_false]

/-- Helper: mergo's merge never disturbs a non-empty destination binding. -/
theorem mergo_keeps_nonempty (src : StrMap) :
    ∀ (dst : StrMap) (k v : String), mapGet dst k = some v → v ≠ "" →
      mapGet (mergoMergeStringMap dst src) k = some v := by
  induction src with
  | nil =>
    intro dst k v h _
    exact h
  | cons kv rest ih =>
    intro dst k v h hv
    exact ih (mergoPut dst kv) k v (mergoPut_keeps_nonempty dst kv h hv) hv

/-- Helper: a key that occurs in no source binding keeps its destination
lookup. -/
theorem mergo_get_of_not_mem (src : StrMap) :
    ∀ (dst : StrMap) (k : String), (∀ kv ∈ src, kv.1 ≠ k) →
      mapGet (mergoMergeStringMap dst src) k = mapGet dst k := by
  induction src with
  | nil =>
    intro dst k _
    rfl
  | cons kv rest ih =>
    intro dst k hne
    have hk : kv.1 ≠ k := hne kv (List.mem_cons_self _ _)
    have hrest : ∀ kv' ∈ rest, kv'.1 ≠ k := fun kv' h' => hne kv' (List.mem_cons_of_mem _ h')
    have := ih (mergoPut dst kv) k hrest
    rw [show mergoMergeStringMap dst (kv :: rest) = mergoMergeStringMap (mergoPut dst kv) rest from rfl]
    rw [this, mergoPut_get_ne dst kv hk]

/-- Helper: a source key missing from the destination is added with the source
value (source keys assumed pairwise distinct, as in a Go map). -/
theorem mergo_adds_missing (src : StrMap) :
    ∀ (dst : StrMap) (k w : String),
      (src.map Prod.fst).Nodup → mapGet dst k = none → mapGet src k = some w →
      mapGet (mergoMergeStringMap dst src) k = some w := by
  induction src with
  | nil =>
    intro dst k w _ _ hs
    simp [mapGet] at hs
  | cons kv rest ih =>
    intro dst k w hnd hdst hsrc
    obtain ⟨a, b⟩ := kv
    have hnd' : (rest.map Prod.fst).Nodup := (List.nodup_cons.mp (by simpa using hnd)).2
    by_cases hk : a = k
    · subst hk
      have hw : w = b := by
        have : (if a = a then some b else mapGet rest a) = some w := hsrc
        simpa using this.symm
      subst hw
      have hput : mergoPut dst (a, w) = mapSet dst a w := by
        simp [mergoPut, hdst]
      have hnotin : ∀ kv' ∈ rest, kv'.1 ≠ a := by
        intro kv' hmem heq
        have hmem' : a ∈ rest.map Prod.fst := heq ▸ List.mem_map_of_mem Prod.fst hmem
        exact (List.nodup_cons.mp (by simpa using hnd)).1 hmem'
      rw [show mergoMergeStringMap dst ((a, w) :: rest)
            = mergoMergeStringMap (mergoPut dst (a, w)) rest from rfl]
      rw [mergo_get_of_not_mem rest _ _ hnotin, hput]
      exact mapGet_mapSet_eq dst a w
    · have hsrc' : mapGet rest k = some w := by
        have : (if a = k then some b else mapGet rest k) = some w := hsrc
        simpa [hk] using this
      have hdst' : mapGet (mergoPut dst (a, b)) k = none := by
        rw [mergoPut_get_ne dst (a, b) (by simpa using hk)]
        exact hdst
      exact ih (mergoPut dst (a, b)) k w hnd' hdst' hsrc'

/-- Helper: the Merge branch of WithLabels on a non-nil destination map. -/
theorem withLabels_merge (h : PodTemplateBuilderDefault) (dst newMap : StrMap)
    (hdst : h.podTemplate.labels = some dst) :
    h.WithLabels (some newMap) [Merge] =
      some { podTemplate := { h.podTemplate with
        labels := some (mergoMergeStringMap dst newMap) } } := by
  simp [PodTemplateBuilderDefault.WithLabels, hdst, IsOverwrite, IsOverwriteIfDefaultValue,
    IsMerge, Overwrite, OverwriteIfDefaultValue, Merge]

/-- C2 refutation of the spec scenario: destination x=1 merged with x=2,y=3
under the Merge option yields x=1,y=3 -- the destination's value wins on the
conflicting key, not the new map's. -/
theorem c2_counterexample_merge_keeps_old_value :
    (ptLabelsX1.WithLabels (some [("x", "2"), ("y", "3")]) [Merge]).map
        (fun b => b.podTemplate.labels) = some (some [("x", "1"), ("y", "3")]) ∧
    (ptLabelsX1.WithLabels (some [("x", "2"), ("y", "3")]) [Merge]).map
        (fun b => mapGet (b.podTemplate.labels.getD []) "x") = some (some "1") ∧
    decide ((ptLabelsX1.WithLabels (some [("x", "2"), ("y", "3")]) [Merge]).map
        (fun b => mapGet (b.podTemplate.labels.getD []) "x") = some (some "2")) = false := by
  decide

/-- C2 (amended): WithLabels with the Merge option merges through mergo's
default map merge: keys present only in the new map are added to the
destination, but on a conflicting key the destination's existing non-empty
value wins (the new value is taken only when the destination binding is
missing or empty); in particular destination x=1 merged with x=2,y=3 yields
x=1,y=3. -/
theorem c2_amended_deep_merge_labels :
    (∀ (h : PodTemplateBuilderDefault) (dst newMap : StrMap) (k v w : String),
        h.podTemplate.labels = some dst →
        (h.WithLabels (some newMap) [Merge]).map (fun b => b.podTemplate.labels)
            = some (some (mergoMergeStringMap dst newMap)) ∧
        (mapGet dst k = some v → v ≠ "" →
          mapGet (mergoMergeStringMap dst newMap) k = some v) ∧
        ((newMap.map Prod.fst).Nodup → mapGet dst k = none → mapGet newMap k = some w →
          mapGet (mergoMergeStringMap dst newMap) k = some w)) ∧
    (ptLabelsX1.WithLabels (some [("x", "2"), ("y", "3")]) [Merge]).map
        (fun b => b.podTemplate.labels) = some (some [("x", "1"), ("y", "3")]) := by
  refine ⟨fun h dst newMap k v w hdst => ⟨?_, ?_, ?_⟩, by decide⟩
  · rw [withLabels_merge h dst newMap hdst]
    rfl
  · intro hget hv
    exact mergo_keeps_nonempty newMap dst k v hget hv
  · intro hnd hnone hnew
    exact mergo_adds_missing newMap dst k w hnd hnone hnew

/-- Witness for c2_amended_deep_merge_labels on the scenario maps: the
conflicting key x keeps the destination value 1, the novel key y is added
with value 3. -/
theorem c2_amended_deep_merge_labels_witness :
    (ptLabelsX1.WithLabels (some [("x", "2"), ("y", "3")]) [Merge]).map
        (fun b => b.podTemplate.labels)
      = some (some (mergoMergeStringMap [("x", "1")] [("x", "2"), ("y", "3")])) ∧
    mapGet (mergoMergeStringMap [("x", "1")] [("x", "2"), ("y", "3")]) "x" = some "1" ∧
    mapGet (mergoMergeStringMap [("x", "1")] [("x", "2"), ("y", "3")]) "y" = some "3" := by
  obtain ⟨he, hkeep, -⟩ :=
    c2_amended_deep_merge_labels.1 ptLabelsX1 [("x", "1")] [("x", "2"), ("y", "3")]
      "x" "1" "1" rfl
  obtain ⟨-, -, hadd⟩ :=
    c2_amended_deep_merge_labels.1 ptLabelsX1 [("x", "1")] [("x", "2"), ("y", "3")]
      "y" "1" "3" rfl
  exact ⟨he, hkeep (by decide) (by decide), hadd (by decide) (by decide) (by decide)⟩

/-- Helper: setting an index to the value it already holds is the identity. -/
theorem set_getElem?_self {α : Type} (l : List α) (i : Nat) (v : α) (h : l[i]? = some v) :
    l.set i v = l := by
  induction l generalizing i with
  | nil => simp at h
  | cons a t ih =>
    cases i with
    | zero =>
      simp only [List.getElem?_cons_zero, Option.some.injEq] at h
      simp [List.set, h]
    | succ n =>
      simp only [List.getElem?_cons_succ] at h
      simp [List.set, ih n h]

/-- Helper: one upsert step only rewrites a slot to an entry with the same
identity key or appends at the end, so the key sequence of the destination is
preserved as a prefix. -/
theorem upsertOne_map_key {α κ : Type} [DecidableEq κ] (key : α → κ) (acc : List α) (p : α) :
    ∃ r, (upsertOne key acc p).map key = acc.map key ++ r := by
  cases hf : acc.findIdx? (fun o => decide (key p = key o)) with
  | none =>
    refine ⟨[key p], ?_⟩
    simp [upsertOne, hf]
  | some i =>
    obtain ⟨hi, hp, -⟩ := List.findIdx?_eq_some_iff_getElem.mp hf
    have hkey : key p = key acc[i] := of_decide_eq_true hp
    refine ⟨[], ?_⟩
    simp only [upsertOne, hf, List.append_nil, List.map_set]
    apply set_getElem?_self
    rw [List.getElem?_map, List.getElem?_eq_getElem hi]
    simp [hkey]

/-- Helper: the whole upsert loop preserves the destination's key sequence as
a prefix of the result's key sequence (no reordering, no deletion, appends
only at the end). -/
theorem upsert_map_key_prefix {α κ : Type} [DecidableEq κ] (key : α → κ) (newList : List α) :
    ∀ dst : List α, ∃ r, (upsertByKey key dst newList).map key = dst.map key ++ r := by
  induction newList with
  | nil =>
    intro dst
    exact ⟨[], by simp [upsertByKey]⟩
  | cons p rest ih =>
    intro dst
    obtain ⟨r2, h2⟩ := ih (upsertOne key dst p)
    obtain ⟨r1, h1⟩ := upsertOne_map_key key dst p
    refine ⟨r1 ++ r2, ?_⟩
    rw [show upsertByKey key dst (p :: rest) = upsertByKey key (upsertOne key dst p) rest from rfl]
    rw [h2, h1, List.append_assoc]

/-- Helper: the Merge branch of WithPort on a non-nil destination list. -/
theorem withPort_merge (c : ContainerBuilderDefault) (dstPorts newPorts : List ContainerPort)
    (hdst : c.container.ports = some dstPorts) :
    c.WithPort newPorts [Merge] =
      some { container := { c.container with
        ports := some (upsertByKey (fun p => p.containerPort) dstPorts newPorts) } } := by
  simp [ContainerBuilderDefault.WithPort, hdst, IsOverwrite, IsOverwriteIfDefaultValue,
    IsMerge, Overwrite, OverwriteIfDefaultValue, Merge, upsertByKey]

/-- C3: WithPort under Merge reconciles by the container-port identity: a new
entry whose port number matches an existing entry replaces that entry in
place at its slot; an entry with a novel port number is appended; the
destination's key sequence is preserved as a prefix, so elements already
present are never reordered; and the spec scenario holds concretely. -/
theorem c3_port_merge_upsert :
    (∀ (c : ContainerBuilderDefault) (dstPorts : List ContainerPort) (p : ContainerPort),
      c.container.ports = some dstPorts →
      ((dstPorts.findIdx? (fun o => decide (p.containerPort = o.containerPort)) = none →
          c.WithPort [p] [Merge] =
            some { container := { c.container with ports := some (dstPorts ++ [p]) } }) ∧
       (∀ i, dstPorts.findIdx? (fun o => decide (p.containerPort = o.containerPort)) = some i →
          c.WithPort [p] [Merge] =
            some { container := { c.container with ports := some (dstPorts.set i p) } }))) ∧
    (∀ (c : ContainerBuilderDefault) (dstPorts newPorts : List ContainerPort),
      c.container.ports = some dstPorts →
      c.WithPort newPorts [Merge] =
        some { container := { c.container with
          ports := some (upsertByKey (fun p => p.containerPort) dstPorts newPorts) } } ∧
      ∃ restKeys,
        (upsertByKey (fun p => p.containerPort) dstPorts newPorts).map
            (fun p => p.containerPort)
          = dstPorts.map (fun p => p.containerPort) ++ restKeys) ∧
    (({ container := { ports := some [⟨"v1", 1⟩, ⟨"v2", 2⟩] } } :
        ContainerBuilderDefault).WithPort
        [⟨"v99", 2⟩, ⟨"v3", 3⟩] [Merge]).map (fun b => b.container.ports)
      = some (some [⟨"v1", 1⟩, ⟨"v99", 2⟩, ⟨"v3", 3⟩]) := by
  refine ⟨fun c dstPorts p hdst => ⟨fun hnone => ?_, fun i hsome => ?_⟩,
          fun c dstPorts newPorts hdst => ⟨withPort_merge c dstPorts newPorts hdst,
            upsert_map_key_prefix _ newPorts dstPorts⟩, by decide⟩
  · rw [withPort_merge c dstPorts [p] hdst]
    have hstep : upsertByKey (fun q => q.containerPort) dstPorts [p] = dstPorts ++ [p] := by
      simp [upsertByKey, upsertOne, hnone]
    rw [hstep]
  · rw [withPort_merge c dstPorts [p] hdst]
    have hstep : upsertByKey (fun q => q.containerPort) dstPorts [p] = dstPorts.set i p := by
      simp [upsertByKey, upsertOne, hsome]
    rw [hstep]

/-- Witness for c3_port_merge_upsert: a novel port 3 is appended after port 1,
and port 2 is replaced in place at slot 1. -/
theorem c3_port_merge_upsert_witness :
    ({ container := { ports := some [⟨"v1", 1⟩] } } : ContainerBuilderDefault).WithPort
        [⟨"v3", 3⟩] [Merge] =
      some { container := { ports := some [⟨"v1", 1⟩, ⟨"v3", 3⟩] } } ∧
    ({ container := { ports := some [⟨"v1", 1⟩, ⟨"v2", 2⟩] } } :
        ContainerBuilderDefault).WithPort [⟨"v99", 2⟩] [Merge] =
      some { container := { ports := some [⟨"v1", 1⟩, ⟨"v99", 2⟩] } } := by
  have h1 := (c3_port_merge_upsert.1
    { container := { ports := some [⟨"v1", 1⟩] } } [⟨"v1", 1⟩] ⟨"v3", 3⟩ rfl).1 (by decide)
  have h2 := (c3_port_merge_upsert.1
    { container := { ports := some [⟨"v1", 1⟩, ⟨"v2", 2⟩] } } [⟨"v1", 1⟩, ⟨"v2", 2⟩]
    ⟨"v99", 2⟩ rfl).2 1 (by decide)
  exact ⟨h1, h2⟩
